import Mathlib

/-!
# Verification of the whatsmeow session-runtime core

A shallow embedding, in Lean 4, of the session runtime of the
whatsmeow WhatsApp-web client library (event bus, lifecycle /
reconnect state machine, inbound router, request-id allocation,
logout, profile-picture query), together with theorems settling the
specification claims about it.

Go functions become Lean functions; stateful methods become explicit
state-passing functions that also return the list of observable
actions they perform (log lines, emitted events, socket operations);
goroutine bodies are flattened into the action trace at their spawn
point.  Machine integers are modelled as `Nat` with explicit `% 2^w`
where wraparound matters.
-/

set_option autoImplicit false

namespace Whatsmeow

/-! ## Events (types/events, part_000 lines 377-565)

Only the payload needed by the session core is modelled; handlers
receive the event value. -/

/-- Typed events emitted by the client (package `events`). -/
inductive Event where
  | Disconnected
  | Connected
  | LoggedOut (onConnect : Bool)
  | StreamError (code : String)
  | ConnectFailure (reason : String)
  | QRScannedWithoutMultidevice
  deriving DecidableEq

/-- Outcome of running one event-handler body on one event: either it
returns normally or it panics.  This models the Go
`EventHandler func(evt interface\x7b\x7d)` bodies, abstracting the body by
what the runtime can observe of it. -/
inductive HandlerOutcome where
  | ok
  | panics
  deriving DecidableEq

/-- A registered subscriber: `wrappedEventHandler \x7bfn, id\x7d`
(part_000 lines 36-39).  `fn` is modelled by its outcome on each
event. -/
abbrev Subscriber := Nat × (Event → HandlerOutcome)

/-- Result of one `dispatchEvent` call: which handler ids were
invoked (in order), whether a panic was recovered and logged with a
stack trace, and whether the panic escaped (crashing the goroutine). -/
structure DispatchResult where
  invoked : List Nat
  panicLogged : Bool
  crashed : Bool
  deriving DecidableEq

/-- `Client.dispatchEvent` (part_000 lines 364-376).  The Go code
takes the read lock, defers a single function that unlocks and calls
`recover()`, then iterates the subscriber list calling each `fn`.
A panic in one handler unwinds the whole loop; the deferred
`recover()` catches it and logs it, so no further handler runs for
this event and the goroutine returns normally. -/
def dispatchEvent (handlers : List Subscriber) (evt : Event) : DispatchResult :=
  match handlers with
  | [] => ⟨[], false, false⟩
  | (i, f) :: rest =>
    match f evt with
    | .ok =>
      let r := dispatchEvent rest evt
      ⟨i :: r.invoked, r.panicLogged, r.crashed⟩
    | .panics => ⟨[i], true, false⟩

/-- Handlers actually invoked are registered handlers. -/
theorem dispatchEvent_invoked_subset (handlers : List Subscriber) (evt : Event) :
    ∀ x ∈ (dispatchEvent handlers evt).invoked, x ∈ handlers.map Prod.fst := by
  induction handlers with
  | nil => intro x hx; simp [dispatchEvent] at hx
  | cons p rest ih =>
    obtain ⟨i, f⟩ := p
    intro x hx
    simp only [dispatchEvent] at hx
    cases hf : f evt with
    | ok =>
      rw [hf] at hx
      simp only [List.map_cons]
      rcases List.mem_cons.mp hx with h | h
      · exact List.mem_cons.mpr (Or.inl h)
      · exact List.mem_cons.mpr (Or.inr (ih x h))
    | panics =>
      rw [hf] at hx
      simp only [List.mem_singleton] at hx
      simp [hx]

/-- A dispatch never crashes the session: the deferred `recover`
catches every handler panic. -/
theorem dispatchEvent_never_crashes (handlers : List Subscriber) (evt : Event) :
    (dispatchEvent handlers evt).crashed = false := by
  induction handlers with
  | nil => rfl
  | cons p rest ih =>
    obtain ⟨i, f⟩ := p
    simp only [dispatchEvent]
    cases f evt <;> simp [ih]

/-- Three subscribers; the middle one panics on every event
(spec scenario S6). -/
def s6Handlers : List Subscriber :=
  [(1, fun _ => .ok), (2, fun _ => .panics), (3, fun _ => .ok)]

/-! ## Event-handler registry (part_000 lines 262-300) -/

/-- `Client.AddEventHandler` (part_000 lines 265-271): bump the
process-wide atomic `nextHandlerID` counter (a `uint32`, hence the
`% 2^32`), append the wrapped handler, return the new id.  Result:
(new handler list, new counter value, returned id). -/
def AddEventHandler (handlers : List Subscriber) (nextHandlerID : Nat)
    (fn : Event → HandlerOutcome) : List Subscriber × Nat × Nat :=
  let nextID := (nextHandlerID + 1) % 2 ^ 32
  (handlers ++ [(nextID, fn)], nextID, nextID)

/-- `Client.RemoveEventHandler` (part_000 lines 275-293).  The Go loop
finds the first index whose `id` matches; for index 0 it reslices the
head off, for an inner index it shifts the tail left by one and
truncates.  Both branches net to deleting that single element while
keeping the others in order, which is what this recursion does. -/
def RemoveEventHandler (handlers : List Subscriber) (id : Nat) :
    Bool × List Subscriber :=
  match handlers with
  | [] => (false, [])
  | (i, f) :: rest =>
    if i = id then (true, rest)
    else
      let r := RemoveEventHandler rest id
      (r.1, (i, f) :: r.2)

/-- Looking up an id that is not registered leaves the list alone and
returns false. -/
theorem RemoveEventHandler_not_mem (handlers : List Subscriber) (id : Nat)
    (h : id ∉ handlers.map Prod.fst) :
    RemoveEventHandler handlers id = (false, handlers) := by
  induction handlers with
  | nil => rfl
  | cons p rest ih =>
    obtain ⟨i, f⟩ := p
    simp only [List.map_cons, List.mem_cons, not_or] at h
    obtain ⟨hi, hrest⟩ := h
    simp only [RemoveEventHandler]
    rw [if_neg (fun he => hi he.symm), ih hrest]

/-- Removing a registered id (ids pairwise distinct) returns true and
filters out exactly that entry, keeping the rest in order. -/
theorem RemoveEventHandler_mem (handlers : List Subscriber) (id : Nat)
    (hnodup : (handlers.map Prod.fst).Nodup)
    (h : id ∈ handlers.map Prod.fst) :
    RemoveEventHandler handlers id =
      (true, handlers.filter (fun p => p.1 != id)) := by
  induction handlers with
  | nil => simp at h
  | cons p rest ih =>
    obtain ⟨i, f⟩ := p
    simp only [List.map_cons, List.nodup_cons] at hnodup
    obtain ⟨hinotin, hnodup⟩ := hnodup
    simp only [RemoveEventHandler]
    by_cases hi : i = id
    · subst hi
      rw [if_pos rfl]
      have hfilter : rest.filter (fun p => p.1 != i) = rest := by
        apply List.filter_eq_self.mpr
        intro a ha
        have : a.1 ∈ rest.map Prod.fst := List.mem_map_of_mem Prod.fst ha
        simp only [bne_iff_ne, ne_eq]
        exact fun he => hinotin (he ▸ this)
      simp [hfilter]
    · rw [if_neg hi]
      have hmem : id ∈ rest.map Prod.fst := by
        rcases List.mem_cons.mp h with he | hm
        · exact absurd he.symm hi
        · exact hm
      rw [ih hnodup hmem]
      simp [List.filter_cons, bne_iff_ne, hi]

/-- After a removal under distinct ids, the removed id is gone from
the registry. -/
theorem RemoveEventHandler_id_gone (handlers : List Subscriber) (id : Nat)
    (hnodup : (handlers.map Prod.fst).Nodup) :
    id ∉ ((RemoveEventHandler handlers id).2.map Prod.fst) := by
  by_cases h : id ∈ handlers.map Prod.fst
  · rw [RemoveEventHandler_mem handlers id hnodup h]
    intro hmem
    simp only [List.mem_map] at hmem
    obtain ⟨p, hp, hfst⟩ := hmem
    have := List.of_mem_filter hp
    simp only [bne_iff_ne, ne_eq] at this
    exact this hfst
  · rw [RemoveEventHandler_not_mem handlers id h]
    exact h

/-- C8: for a registered id (all registered ids are pairwise distinct,
as they come from the process-wide counter), `RemoveEventHandler`
returns true and removes exactly that subscriber, preserving the
relative order of the others; for an unregistered id it returns false
and changes nothing; and after a removal no dispatch invokes the
removed handler's id again. -/
theorem c8_RemoveEventHandler (handlers : List Subscriber) (id : Nat)
    (hnodup : (handlers.map Prod.fst).Nodup) :
    (id ∈ handlers.map Prod.fst →
      RemoveEventHandler handlers id =
        (true, handlers.filter (fun p => p.1 != id))) ∧
    (id ∉ handlers.map Prod.fst →
      RemoveEventHandler handlers id = (false, handlers)) ∧
    (∀ evt, id ∉ (dispatchEvent (RemoveEventHandler handlers id).2 evt).invoked) := by
  refine ⟨RemoveEventHandler_mem handlers id hnodup,
          RemoveEventHandler_not_mem handlers id, ?_⟩
  intro evt hmem
  exact RemoveEventHandler_id_gone handlers id hnodup
    (dispatchEvent_invoked_subset _ evt id hmem)

/-- C8 witness: a concrete three-subscriber registry; removing id 2
returns true, keeps subscribers 1 and 3 in order, and a dispatch after
the removal does not invoke handler 2. -/
theorem c8_RemoveEventHandler_witness :
    RemoveEventHandler s6Handlers 2 =
      (true, s6Handlers.filter (fun p => p.1 != 2)) ∧
    2 ∉ (dispatchEvent (RemoveEventHandler s6Handlers 2).2 Event.Connected).invoked := by
  have h := c8_RemoveEventHandler s6Handlers 2 (by simp [s6Handlers])
  exact ⟨h.1 (by simp [s6Handlers]), h.2.2 Event.Connected⟩

/-! ## C1: panic isolation in dispatchEvent -/

/-- C1 counterexample: with three subscribers where the middle one
panics, the panic is caught and logged and the session does not
crash, but the third subscriber is NOT invoked — dispatch of that
event stops at the panicking subscriber, contradicting the claim that
the remaining subscribers after it still see the event. -/
theorem c1_dispatch_counterexample :
    (dispatchEvent s6Handlers Event.Disconnected).panicLogged = true ∧
    (dispatchEvent s6Handlers Event.Disconnected).crashed = false ∧
    (dispatchEvent s6Handlers Event.Disconnected).invoked = [1, 2] ∧
    3 ∉ (dispatchEvent s6Handlers Event.Disconnected).invoked := by
  refine ⟨rfl, rfl, rfl, ?_⟩
  decide

/-- C1 amended: if every subscriber before position `k` handles the
event normally and the subscriber at `k` panics, the subscribers
before `k` and the one at `k` are invoked (in order), the panic is
recovered and logged with a stack trace, the session goroutine does
not crash — but the subscribers after `k` are not invoked with this
event. -/
theorem c1_dispatch_amended (pre post : List Subscriber) (i : Nat)
    (f : Event → HandlerOutcome) (evt : Event)
    (hpre : ∀ p ∈ pre, p.2 evt = HandlerOutcome.ok)
    (hf : f evt = HandlerOutcome.panics) :
    dispatchEvent (pre ++ (i, f) :: post) evt =
      ⟨pre.map Prod.fst ++ [i], true, false⟩ := by
  induction pre with
  | nil =>
    simp only [List.nil_append, dispatchEvent, hf, List.map_nil]
  | cons p rest ih =>
    obtain ⟨j, g⟩ := p
    have hg : g evt = HandlerOutcome.ok := hpre (j, g) (List.mem_cons_self _ _)
    have hrest : ∀ p ∈ rest, p.2 evt = HandlerOutcome.ok :=
      fun p hp => hpre p (List.mem_cons_of_mem _ hp)
    simp only [List.cons_append, dispatchEvent, hg, List.append_eq, ih hrest,
      List.map_cons]

/-- C1 amended witness: the concrete S6 scenario, via the amended
theorem at `pre = [subscriber 1]`, panicking subscriber 2,
`post = [subscriber 3]`. -/
theorem c1_dispatch_amended_witness :
    dispatchEvent s6Handlers Event.Disconnected =
      ⟨[1, 2], true, false⟩ := by
  have h := c1_dispatch_amended [(1, fun _ => HandlerOutcome.ok)]
      [(3, fun _ => HandlerOutcome.ok)] 2 (fun _ => HandlerOutcome.panics)
      Event.Disconnected
      (by
        intro p hp
        simp only [List.mem_singleton] at hp
        rw [hp])
      rfl
  simpa [s6Handlers] using h

/-! ## Connection lifecycle (part_000 lines 123-229) -/

/-- Observable actions of the lifecycle code, in program order.
Goroutine bodies (`go ...`) are recorded at their spawn point. -/
inductive Action where
  | stopSocket (sock : Nat) (graceful : Bool)
  | releaseWaiter (id : String)
  | emit (e : Event)
  | scheduleAutoReconnect
  | logDebug
  | logInfo
  | logWarn
  | logError
  | disconnectCall
  | connectCall
  | setExpectedDisconnect
  | storeDelete
  | sendIQ (tag : String)
  deriving DecidableEq

/-- The slice of `Client` state the disconnect path touches: the
socket slot (socket identity, or `none`), the atomic
expected-disconnect flag, and the outstanding response-waiter ids. -/
structure ConnState where
  socket : Option Nat
  expectedDisconnect : Bool
  responseWaiters : List String
  deriving DecidableEq

/-- Modelled from the spec: `clearResponseWaiters` is not under
`src/`; per the spec, on teardown "all waiters are released with a
disconnect error" and the waiter map is emptied.  This gives the
release actions, one per outstanding waiter. -/
def clearResponseWaiters (ws : List String) : List Action :=
  ws.map Action.releaseWaiter

/-- `Client.onDisconnect` (part_000 lines 150-169): stop the reporting
socket, then under the write lock compare it with the active slot.  On
a match, clear the slot, release all waiters, and emit
`Disconnected` + schedule auto-reconnect exactly when the disconnect
is remote and not expected; on a mismatch only log. -/
def onDisconnect (st : ConnState) (ns : Nat) (remote : Bool) :
    ConnState × List Action :=
  if st.socket = some ns then
    let st1 : ConnState := { st with socket := none, responseWaiters := [] }
    let acts := Action.stopSocket ns false :: clearResponseWaiters st.responseWaiters
    if !st.expectedDisconnect && remote then
      (st1, acts ++ [Action.logDebug, Action.emit Event.Disconnected,
                     Action.scheduleAutoReconnect])
    else
      (st1, acts ++ [Action.logDebug])
  else
    (st, [Action.stopSocket ns false, Action.logDebug])

/-- C2: on a stale socket, `onDisconnect` changes nothing in the
session (it only stops the reporting socket and logs); on the active
socket, the slot is cleared, every outstanding waiter is released, and
the `Disconnected` event is emitted and auto-reconnect scheduled if
and only if the disconnect is remote and the expected-disconnect flag
is false at the moment of inspection. -/
theorem c2_onDisconnect (st : ConnState) (ns : Nat) (remote : Bool) :
    (st.socket ≠ some ns →
      (onDisconnect st ns remote).1 = st ∧
      (onDisconnect st ns remote).2 = [Action.stopSocket ns false, Action.logDebug]) ∧
    (st.socket = some ns →
      (onDisconnect st ns remote).1 =
        { st with socket := none, responseWaiters := [] } ∧
      (∀ w ∈ st.responseWaiters,
        Action.releaseWaiter w ∈ (onDisconnect st ns remote).2) ∧
      ((Action.emit Event.Disconnected ∈ (onDisconnect st ns remote).2) ↔
        remote = true ∧ st.expectedDisconnect = false) ∧
      ((Action.scheduleAutoReconnect ∈ (onDisconnect st ns remote).2) ↔
        remote = true ∧ st.expectedDisconnect = false)) := by
  constructor
  · intro hne
    rw [onDisconnect, if_neg hne]
    exact ⟨rfl, rfl⟩
  · intro heq
    simp only [onDisconnect, if_pos heq]
    cases hexp : st.expectedDisconnect <;> cases hrem : remote <;>
      simp [clearResponseWaiters, List.mem_append, List.mem_map]

/-- C2 witness: active socket 7, flag down, two outstanding waiters,
remote close: the slot is cleared, waiter "a" is released, and the
`Disconnected` event is emitted. -/
theorem c2_onDisconnect_witness :
    (onDisconnect ⟨some 7, false, ["a", "b"]⟩ 7 true).1 =
      ⟨none, false, []⟩ ∧
    Action.releaseWaiter "a" ∈ (onDisconnect ⟨some 7, false, ["a", "b"]⟩ 7 true).2 ∧
    Action.emit Event.Disconnected ∈ (onDisconnect ⟨some 7, false, ["a", "b"]⟩ 7 true).2 := by
  have h := (c2_onDisconnect ⟨some 7, false, ["a", "b"]⟩ 7 true).2 rfl
  exact ⟨h.1, h.2.1 "a" (by simp), (h.2.2.1).mpr ⟨rfl, rfl⟩⟩

/-! ## Binary nodes (external codec interface)

Only what the session core reads from a node is modelled: the tag,
string-valued attributes, and child nodes. -/

/-- A decoded binary node: tag, attributes, children. -/
inductive Node where
  | node (tag : String) (attrs : List (String × String)) (children : List Node)

/-- The node's tag. -/
def Node.tag : Node → String
  | .node t _ _ => t

/-- The node's attribute list. -/
def Node.attrs : Node → List (String × String)
  | .node _ a _ => a

/-- The node's child list (`GetChildren`). -/
def Node.children : Node → List Node
  | .node _ _ c => c

/-- Attribute lookup, `node.Attrs[k]` with the `(string)` type
assertion's ok flag: `some v` when present. -/
def attrLookup (attrs : List (String × String)) (k : String) : Option String :=
  (attrs.find? (fun p => p.1 == k)).map Prod.snd

/-- `Node.GetOptionalChildByTag` with a single tag: the first child
with that tag, plus the ok flag. -/
def getOptionalChildByTag (n : Node) (t : String) : Option Node :=
  n.children.find? (fun c => c.tag == t)

/-- The zero node that `Node.GetChildByTag` yields when no child
matches. -/
def emptyNode : Node := .node "" [] []

/-- `Node.GetChildByTag` with a single tag: first matching child, or
the zero node. -/
def getChildByTag (n : Node) (t : String) : Node :=
  (getOptionalChildByTag n t).getD emptyNode

/-- `AttrGetter().String(k)`: the attribute's value, or "" when
absent (the getter records the error separately). -/
def attrString (n : Node) (k : String) : String :=
  (attrLookup n.attrs k).getD ""

/-! ## Stream errors (part_001 lines 17-49) -/

/-- The slice of `Client` state the stream-error handler touches. -/
structure StreamState where
  isLoggedIn : Bool
  expectedDisconnect : Bool
  deriving DecidableEq

/-- `Client.handleStreamError` (part_001 lines 17-49): clear
`IsLoggedIn`; on code 515 log and spawn a goroutine doing
`Disconnect()` then `Connect()` (flattened into the trace); on code
401 with a `conflict type=device_removed` child raise the
expected-disconnect flag, emit `LoggedOut\x7bfalse\x7d` and delete the
store; otherwise emit a generic `StreamError`. -/
def handleStreamError (st : StreamState) (node : Node) : StreamState × List Action :=
  let st1 : StreamState := { st with isLoggedIn := false }
  let code := (attrLookup node.attrs "code").getD ""
  if code = "515" then
    (st1, [Action.logInfo, Action.disconnectCall, Action.connectCall])
  else if code = "401" then
    match getOptionalChildByTag node "conflict" with
    | some conflict =>
      if attrString conflict "type" = "device_removed" then
        ({ st1 with expectedDisconnect := true },
         [Action.setExpectedDisconnect, Action.logInfo,
          Action.emit (Event.LoggedOut false), Action.storeDelete])
      else
        (st1, [Action.logError, Action.emit (Event.StreamError code)])
    | none =>
      (st1, [Action.logError, Action.emit (Event.StreamError code)])
  else
    (st1, [Action.logError, Action.emit (Event.StreamError code)])

/-- A concrete `<stream:error code="515"/>` node. -/
def node515 : Node := .node "stream:error" [("code", "515")] []

/-- A local (non-remote) socket stop never emits `Disconnected` nor
schedules auto-reconnect, whatever the expected-disconnect flag. -/
theorem onDisconnect_local_silent (cs : ConnState) (ns : Nat) :
    Action.emit Event.Disconnected ∉ (onDisconnect cs ns false).2 ∧
    Action.scheduleAutoReconnect ∉ (onDisconnect cs ns false).2 := by
  by_cases h : cs.socket = some ns <;>
    simp [onDisconnect, h, clearResponseWaiters, List.mem_append, List.mem_map]

/-- C3 counterexample: handling `<stream:error code="515"/>` from a
state with the expected-disconnect flag down produces the trace
log, Disconnect, Connect — the flag is never raised, neither before
nor after the socket stop, contradicting the claim that the flag is
raised strictly before the stop. -/
theorem c3_515_counterexample :
    (handleStreamError ⟨true, false⟩ node515).2 =
      [Action.logInfo, Action.disconnectCall, Action.connectCall] ∧
    Action.setExpectedDisconnect ∉ (handleStreamError ⟨true, false⟩ node515).2 ∧
    (handleStreamError ⟨true, false⟩ node515).1.expectedDisconnect = false := by
  refine ⟨rfl, by decide, rfl⟩

/-- C3 amended: the 515 handler performs Disconnect then Connect
WITHOUT raising the expected-disconnect flag (the flag keeps its
previous value and no set-flag action occurs anywhere in the trace);
the intentional stop is nevertheless silent because it reaches
`onDisconnect` as a local (remote=false) stop, which emits no
`Disconnected` event and schedules no auto-reconnect. -/
theorem c3_515_amended (st : StreamState) (node : Node)
    (hcode : attrLookup node.attrs "code" = some "515") :
    (handleStreamError st node).2 =
      [Action.logInfo, Action.disconnectCall, Action.connectCall] ∧
    Action.setExpectedDisconnect ∉ (handleStreamError st node).2 ∧
    (handleStreamError st node).1.expectedDisconnect = st.expectedDisconnect ∧
    (∀ cs : ConnState, ∀ ns : Nat,
      Action.emit Event.Disconnected ∉ (onDisconnect cs ns false).2 ∧
      Action.scheduleAutoReconnect ∉ (onDisconnect cs ns false).2) := by
  have hmain : handleStreamError st node =
      ({ st with isLoggedIn := false },
       [Action.logInfo, Action.disconnectCall, Action.connectCall]) := by
    simp [handleStreamError, hcode]
  have hacts : (handleStreamError st node).2 =
      [Action.logInfo, Action.disconnectCall, Action.connectCall] := by
    rw [hmain]
  refine ⟨hacts, ?_, by rw [hmain], fun cs ns => onDisconnect_local_silent cs ns⟩
  rw [hacts]
  decide

/-- C3 amended witness: the concrete 515 node, applied to a concrete
logged-in state. -/
theorem c3_515_amended_witness :
    (handleStreamError ⟨true, false⟩ node515).2 =
      [Action.logInfo, Action.disconnectCall, Action.connectCall] ∧
    Action.setExpectedDisconnect ∉ (handleStreamError ⟨true, false⟩ node515).2 := by
  have h := c3_515_amended ⟨true, false⟩ node515 rfl
  exact ⟨h.1, h.2.1⟩

/-! ## Request-id allocation (part_000 lines 78-79, 93-100)

`NewClient` draws two random bytes and sets
`uniqueID = fmt.Sprintf("%d.%d-", b0, b1)` — a DECIMAL rendering.
Request ids append the decimal value of the 64-bit counter.  The
decimal formatter (Go's `%d` / `strconv.FormatUint`) is embedded as
`decChars`, with a decode round-trip giving injectivity. -/

/-- The character for decimal digit `d`. -/
def digitChar (d : Nat) : Char := Char.ofNat (48 + d)

/-- Decimal digits, fuel-indexed so that the kernel can evaluate it
(the fuel strictly dominates the number of digits). -/
def decCharsAux : Nat → Nat → List Char
  | 0, _ => []
  | fuel + 1, n =>
    if n < 10 then [digitChar n]
    else decCharsAux fuel (n / 10) ++ [digitChar (n % 10)]

/-- Decimal digits of `n`, most significant first — how `%d` renders
a nonnegative integer. -/
def decChars (n : Nat) : List Char := decCharsAux (n + 1) n

theorem decCharsAux_fuel_irrel :
    ∀ f1 f2 n : Nat, n < f1 → n < f2 → decCharsAux f1 n = decCharsAux f2 n := by
  intro f1
  induction f1 with
  | zero => intro f2 n h1; omega
  | succ f ih =>
    intro f2 n h1 h2
    match f2, h2 with
    | g + 1, h2 =>
      simp only [decCharsAux]
      by_cases hn : n < 10
      · simp [hn]
      · rw [if_neg hn, if_neg hn]
        have hlt : n / 10 < n := Nat.div_lt_self (by omega) (by omega)
        rw [ih g (n / 10) (by omega) (by omega)]

/-- The unfolding equation of the decimal formatter. -/
theorem decChars_eq (n : Nat) :
    decChars n =
      if n < 10 then [digitChar n]
      else decChars (n / 10) ++ [digitChar (n % 10)] := by
  show decCharsAux (n + 1) n = _
  rw [decCharsAux]
  by_cases hn : n < 10
  · simp [hn]
  · rw [if_neg hn, if_neg hn]
    have hlt : n / 10 < n := Nat.div_lt_self (by omega) (by omega)
    rw [decCharsAux_fuel_irrel n (n / 10 + 1) (n / 10) (by omega) (by omega)]
    rfl

/-- Decimal rendering of `n` as a string. -/
def decRepr (n : Nat) : String := ⟨decChars n⟩

/-- Decimal decoding, inverse of `decChars`. -/
def decVal (l : List Char) : Nat :=
  l.foldl (fun a ch => 10 * a + (ch.toNat - 48)) 0

theorem digitChar_toNat (d : Nat) (h : d < 10) : (digitChar d).toNat = 48 + d := by
  interval_cases d <;> decide

theorem decVal_append_digit (l : List Char) (c : Char) :
    decVal (l ++ [c]) = 10 * decVal l + (c.toNat - 48) := by
  simp [decVal, List.foldl_append]

/-- Decoding a decimal rendering recovers the number. -/
theorem decVal_decChars (n : Nat) : decVal (decChars n) = n := by
  induction n using Nat.strong_induction_on with
  | _ n ih =>
    rw [decChars_eq]
    by_cases h : n < 10
    · rw [if_pos h]
      simp [decVal, digitChar_toNat n h]
    · rw [if_neg h]
      rw [decVal_append_digit]
      rw [ih (n / 10) (Nat.div_lt_self (by omega) (by omega))]
      rw [digitChar_toNat (n % 10) (Nat.mod_lt n (by omega))]
      omega

/-- Distinct numbers have distinct decimal renderings. -/
theorem decRepr_inj {a b : Nat} (h : decRepr a = decRepr b) : a = b := by
  have hd : decChars a = decChars b := congrArg String.data h
  have := congrArg decVal hd
  rwa [decVal_decChars, decVal_decChars] at this

/-- `Client.uniqueID` as `NewClient` builds it (part_000 line 100):
`fmt.Sprintf("%d.%d-", randomBytes[0], randomBytes[1])`. -/
def uniqueID (b0 b1 : Nat) : String :=
  decRepr b0 ++ "." ++ decRepr b1 ++ "-"

/-- The hex digit character (lowercase), for the spec-refinement
definition only. -/
def hexDigitChar (d : Nat) : Char :=
  if d < 10 then Char.ofNat (48 + d) else Char.ofNat (87 + d)

/-- One byte, hex-encoded (as `encoding/hex` would). -/
def hexByte (b : Nat) : String :=
  ⟨[hexDigitChar (b / 16), hexDigitChar (b % 16)]⟩

/-- The session id prefix as the SPEC's words describe it: "two
bytes, hex-encoded".  Stated only to compare against `uniqueID`,
which is what the source actually builds. -/
def uniqueIDSpec (b0 b1 : Nat) : String := hexByte b0 ++ hexByte b1

/-- Modelled from the spec: `generateRequestID` is not under `src/`;
per the spec it returns `<unique-prefix><++counter>` where the
counter is the session's monotonic 64-bit integer (atomic add, hence
the `% 2^64`).  Returns the id and the new counter value. -/
def generateRequestID (uid : String) (idCounter : Nat) : String × Nat :=
  let c := (idCounter + 1) % 2 ^ 64
  (uid ++ decRepr c, c)

/-- The ids produced by `n` successive `generateRequestID` calls
starting from counter value `c`. -/
def requestIDs (uid : String) : Nat → Nat → List String
  | 0, _ => []
  | n + 1, c =>
    (generateRequestID uid c).1 :: requestIDs uid n (generateRequestID uid c).2

/-- Closed form of the id sequence while the counter does not wrap. -/
theorem requestIDs_eq_map (uid : String) (n c : Nat) (h : c + n ≤ 2 ^ 64) :
    requestIDs uid n c =
      (List.range n).map (fun i => uid ++ decRepr ((c + i + 1) % 2 ^ 64)) := by
  induction n generalizing c with
  | zero => rfl
  | succ n ih =>
    rw [requestIDs, List.range_succ_eq_map, List.map_cons, List.map_map]
    congr 1
    rcases Nat.eq_zero_or_pos n with h0 | hpos
    · subst h0; rfl
    · have hlt : c + 1 < 2 ^ 64 := by omega
      have htail : requestIDs uid n ((c + 1) % 2 ^ 64) =
          List.map (fun i => uid ++ decRepr ((c + 1 + i + 1) % 2 ^ 64))
            (List.range n) := by
        rw [Nat.mod_eq_of_lt hlt]
        exact ih (c + 1) (by omega)
      show requestIDs uid n ((c + 1) % 2 ^ 64) = _
      rw [htail]
      apply List.map_congr_left
      intro i _
      have h2 : c + 1 + i + 1 = c + (i + 1) + 1 := by omega
      simp only [Function.comp_apply, h2, Nat.succ_eq_add_one]

/-- Two request ids of the same session (same prefix string) with
distinct counter values are distinct strings. -/
theorem requestID_inj (uid : String) {a b : Nat}
    (h : uid ++ decRepr a = uid ++ decRepr b) : a = b := by
  apply decRepr_inj
  have hd := congrArg String.data h
  rw [String.data_append, String.data_append] at hd
  exact congrArg String.mk (List.append_cancel_left hd)

/-- C4 counterexample: for random bytes 171 and 205 the source builds
the id namespace string "171.205-" (decimal, dot-and-dash separated),
not the hex encoding "abcd" the claim describes. -/
theorem c4_uniqueID_counterexample :
    uniqueID 171 205 = "171.205-" ∧
    uniqueIDSpec 171 205 = "abcd" ∧
    uniqueID 171 205 ≠ uniqueIDSpec 171 205 := by
  refine ⟨?_, ?_, ?_⟩ <;> decide

/-- C4 amended: the session id namespace string is the DECIMAL
rendering `"<b0>.<b1>-"` of the two random bytes (set once in
`NewClient`, hence stable for the client's lifetime), every request id
is that string followed by the incremented 64-bit counter value, the
counter increments by exactly one while below `2^64 - 1`, and any run
of at most `2^64` ids generated from a fresh session is pairwise
distinct. -/
theorem c4_requestID_amended (b0 b1 : Nat) (n : Nat) (hn : n ≤ 2 ^ 64) :
    uniqueID b0 b1 = decRepr b0 ++ "." ++ decRepr b1 ++ "-" ∧
    (∀ c : Nat, (generateRequestID (uniqueID b0 b1) c).1 =
      uniqueID b0 b1 ++ decRepr ((c + 1) % 2 ^ 64)) ∧
    (∀ c : Nat, c < 2 ^ 64 - 1 → (generateRequestID (uniqueID b0 b1) c).2 = c + 1) ∧
    (requestIDs (uniqueID b0 b1) n 0).Nodup := by
  refine ⟨rfl, fun c => rfl, fun c hc => Nat.mod_eq_of_lt (by omega), ?_⟩
  rw [requestIDs_eq_map (uniqueID b0 b1) n 0 (by omega)]
  apply List.Nodup.map_on ?_ (List.nodup_range n)
  intro i hi j hj hij
  simp only [List.mem_range] at hi hj
  have hctr := requestID_inj (uniqueID b0 b1) hij
  rw [Nat.zero_add, Nat.zero_add] at hctr
  rcases Nat.lt_or_ge (i + 1) (2 ^ 64) with h1 | h1 <;>
    rcases Nat.lt_or_ge (j + 1) (2 ^ 64) with h2 | h2
  · rw [Nat.mod_eq_of_lt h1, Nat.mod_eq_of_lt h2] at hctr
    omega
  · rw [Nat.mod_eq_of_lt h1] at hctr
    have : (j + 1) % 2 ^ 64 = 0 := by
      have : j + 1 = 2 ^ 64 := by omega
      simp [this]
    omega
  · rw [Nat.mod_eq_of_lt h2] at hctr
    have : (i + 1) % 2 ^ 64 = 0 := by
      have : i + 1 = 2 ^ 64 := by omega
      simp [this]
    omega
  · omega

/-- C4 amended witness: bytes 171/205, three generated ids — the
first id is the id namespace string followed by "1", and the three ids
are pairwise distinct. -/
theorem c4_requestID_amended_witness :
    (generateRequestID (uniqueID 171 205) 0).1 = "171.205-1" ∧
    (requestIDs (uniqueID 171 205) 3 0).Nodup := by
  have h := c4_requestID_amended 171 205 3 (by norm_num)
  refine ⟨?_, h.2.2.2⟩
  rw [h.2.1 0]
  decide

/-! ## Inbound routing (part_000 lines 302-346) -/

/-- References to the nine tag handlers that `NewClient` installs
(part_000 lines 109-119); their bodies live elsewhere. -/
inductive NodeHandler where
  | handleEncryptedMessage
  | handleReceipt
  | handleChatState
  | handleNotification
  | handleConnectSuccess
  | handleConnectFailure
  | handleStreamError
  | handleIQ
  | handleIB
  deriving DecidableEq

/-- `cli.nodeHandlers`, the tag-handler table built once in
`NewClient` (part_000 lines 109-119) and never written again in the
package. -/
def nodeHandlers : List (String × NodeHandler) :=
  [("message", .handleEncryptedMessage),
   ("receipt", .handleReceipt),
   ("chatstate", .handleChatState),
   ("notification", .handleNotification),
   ("success", .handleConnectSuccess),
   ("failure", .handleConnectFailure),
   ("stream:error", .handleStreamError),
   ("iq", .handleIQ),
   ("ib", .handleIB)]

/-- The map read `cli.nodeHandlers[tag]` with its ok flag. -/
def lookupHandler (tag : String) : Option NodeHandler :=
  (nodeHandlers.find? (fun p => p.1 == tag)).map Prod.snd

/-- What the router does with one successfully decoded node. -/
inductive FrameAction where
  | streamEndWarn
  | streamEndQuiet
  | deliverToWaiter (id : String)
  | pushQueue
  | overflowPush
  | dropNode
  deriving DecidableEq

/-- Modelled from the spec: `receiveResponse` is not under `src/`;
per the spec it succeeds exactly when the node has an `id` attribute
matching an outstanding waiter (the node then goes to that waiter and
the entry is removed). -/
def receiveResponse (waiters : List String) (n : Node) : Bool :=
  match attrLookup n.attrs "id" with
  | some i => waiters.contains i
  | none => false

/-- The tail of the dispatch chain in `handleFrame` (part_000 lines
323-334): tag registered → non-blocking push, or on a full queue a
warn log plus a detached blocking push; unregistered tag → debug log
and drop. -/
def handleFrameTail (queueFull : Bool) (n : Node) : FrameAction :=
  match lookupHandler n.tag with
  | some _ => if queueFull then FrameAction.overflowPush else FrameAction.pushQueue
  | none => FrameAction.dropNode

/-- The routing decision of `Client.handleFrame` (part_000 lines
316-334) for a successfully decoded node: `xmlstreamend` first (warn
unless expected-disconnect), then the waiter match, then the handler
table, else drop. -/
def handleFrame (expected : Bool) (waiters : List String) (queueFull : Bool)
    (n : Node) : FrameAction :=
  if n.tag = "xmlstreamend" then
    if expected then FrameAction.streamEndQuiet else FrameAction.streamEndWarn
  else
    match attrLookup n.attrs "id" with
    | some i =>
      if waiters.contains i then FrameAction.deliverToWaiter i
      else handleFrameTail queueFull n
    | none => handleFrameTail queueFull n

/-- C5 counterexample: an `xmlstreamend` node whose `id` matches an
outstanding waiter is consumed by the stream-end rule, which runs
before the waiter rule — it is NOT delivered to the waiter, against
the claim's first dispatch rule. -/
theorem c5_handleFrame_counterexample :
    handleFrame false ["x"] false (Node.node "xmlstreamend" [("id", "x")] []) =
      FrameAction.streamEndWarn ∧
    handleFrame false ["x"] false (Node.node "xmlstreamend" [("id", "x")] []) ≠
      FrameAction.deliverToWaiter "x" := by
  refine ⟨rfl, fun h => ?_⟩
  rw [show handleFrame false ["x"] false (Node.node "xmlstreamend" [("id", "x")] []) =
    FrameAction.streamEndWarn from rfl] at h
  exact FrameAction.noConfusion h

/-- C5 amended: for every successfully decoded node whose tag is not
`xmlstreamend`, the dispatch rules apply in order: an `id` matching an
outstanding waiter delivers the node to that waiter and goes no
further; otherwise a tag in the handler table is pushed
non-blockingly, and on a full queue a detached blocking push plus a
warn log happen instead; any other node is dropped with a debug
log. -/
theorem c5_handleFrame_amended (expected : Bool) (waiters : List String)
    (queueFull : Bool) (n : Node) (htag : n.tag ≠ "xmlstreamend") :
    (∀ i, attrLookup n.attrs "id" = some i → waiters.contains i = true →
      handleFrame expected waiters queueFull n = FrameAction.deliverToWaiter i) ∧
    (receiveResponse waiters n = false → (lookupHandler n.tag).isSome = true →
      handleFrame expected waiters queueFull n =
        (if queueFull then FrameAction.overflowPush else FrameAction.pushQueue)) ∧
    (receiveResponse waiters n = false → lookupHandler n.tag = none →
      handleFrame expected waiters queueFull n = FrameAction.dropNode) := by
  refine ⟨?_, ?_, ?_⟩
  · intro i hid hw
    rw [handleFrame, if_neg htag]
    simp only [hid]
    rw [if_pos hw]
  · intro hrr hsome
    rw [receiveResponse] at hrr
    rw [handleFrame, if_neg htag]
    obtain ⟨h, hh⟩ := Option.isSome_iff_exists.mp hsome
    cases hid : attrLookup n.attrs "id" with
    | some i =>
      simp only [hid] at hrr
      have hmem : i ∉ waiters := by simpa using hrr
      simp [hmem, handleFrameTail, hh]
    | none => simp [handleFrameTail, hh]
  · intro hrr hnone
    rw [receiveResponse] at hrr
    rw [handleFrame, if_neg htag]
    cases hid : attrLookup n.attrs "id" with
    | some i =>
      simp only [hid] at hrr
      have hmem : i ∉ waiters := by simpa using hrr
      simp [hmem, handleFrameTail, hnone]
    | none => simp [handleFrameTail, hnone]

/-- C5 amended witness: an `iq` reply goes to its waiter; a `message`
node under a full queue takes the overflow path; an unknown tag is
dropped. -/
theorem c5_handleFrame_amended_witness :
    handleFrame false ["p.1"] false (Node.node "iq" [("id", "p.1")] []) =
      FrameAction.deliverToWaiter "p.1" ∧
    handleFrame false [] true (Node.node "message" [] []) =
      FrameAction.overflowPush ∧
    handleFrame false [] false (Node.node "presence" [] []) =
      FrameAction.dropNode := by
  refine ⟨?_, ?_, ?_⟩
  · exact (c5_handleFrame_amended false ["p.1"] false _ (by decide)).1 "p.1" rfl rfl
  · exact (c5_handleFrame_amended false [] true _ (by decide)).2.1 rfl rfl
  · exact (c5_handleFrame_amended false [] false _ (by decide)).2.2 rfl rfl

/-! ## C9: the handler queue only ever holds handled tags -/

/-- Every node in the handler queue has a registered tag. -/
def queueInv (q : List Node) : Prop :=
  ∀ m ∈ q, (lookupHandler m.tag).isSome = true

/-- One turn of `Client.handlerQueueLoop` (part_000 lines 337-346):
take the next queued node and look its tag up in `cli.nodeHandlers`;
`nilCall` marks the fatal case where the lookup yields no function. -/
inductive WorkerStep where
  | idle
  | runs (h : NodeHandler) (rest : List Node)
  | nilCall

/-- The worker's dequeue-and-lookup step. -/
def handlerQueueStep (q : List Node) : WorkerStep :=
  match q with
  | [] => WorkerStep.idle
  | n :: rest =>
    match lookupHandler n.tag with
    | some h => WorkerStep.runs h rest
    | none => WorkerStep.nilCall

/-- If the router decides to enqueue a node (directly or via the
overflow pusher), its tag is a key of `nodeHandlers`. -/
theorem handleFrame_push_isSome (expected : Bool) (waiters : List String)
    (queueFull : Bool) (n : Node)
    (h : handleFrame expected waiters queueFull n = FrameAction.pushQueue ∨
         handleFrame expected waiters queueFull n = FrameAction.overflowPush) :
    (lookupHandler n.tag).isSome = true := by
  cases hl : lookupHandler n.tag with
  | some f => rfl
  | none =>
    exfalso
    have htail : handleFrameTail queueFull n = FrameAction.dropNode := by
      rw [handleFrameTail, hl]
    rw [handleFrame] at h
    by_cases htag : n.tag = "xmlstreamend"
    · rw [if_pos htag] at h
      cases expected <;> simp at h
    · rw [if_neg htag] at h
      cases hid : attrLookup n.attrs "id" with
      | some i =>
        simp only [hid] at h
        by_cases hw : i ∈ waiters
        · simp [hw] at h
        · simp [hw, htail] at h
      | none =>
        simp only [hid] at h
        simp [htail] at h

/-- C9: enqueueing a routed node preserves the queue invariant that
every queued tag is registered (the table itself is a constant fixed
at construction), so the worker's lookup always yields a handler and
never reaches the nil-function call. -/
theorem c9_worker_never_nil (q : List Node) (expected : Bool)
    (waiters : List String) (queueFull : Bool) (n : Node)
    (hinv : queueInv q)
    (hpush : handleFrame expected waiters queueFull n = FrameAction.pushQueue ∨
             handleFrame expected waiters queueFull n = FrameAction.overflowPush) :
    queueInv (q ++ [n]) ∧ handlerQueueStep (q ++ [n]) ≠ WorkerStep.nilCall := by
  have hq : queueInv (q ++ [n]) := by
    intro m hm
    rcases List.mem_append.mp hm with hm | hm
    · exact hinv m hm
    · rw [List.mem_singleton.mp hm]
      exact handleFrame_push_isSome expected waiters queueFull n hpush
  refine ⟨hq, ?_⟩
  cases hcons : q ++ [n] with
  | nil => simp [handlerQueueStep]
  | cons m rest =>
    have hm : m ∈ q ++ [n] := by rw [hcons]; exact List.mem_cons_self m rest
    have := hq m hm
    obtain ⟨f, hf⟩ := Option.isSome_iff_exists.mp this
    rw [handlerQueueStep, hf]
    simp

/-- C9 witness: a queue holding one `message` node, enqueueing a
`receipt` node routed by `handleFrame`. -/
theorem c9_worker_never_nil_witness :
    queueInv [Node.node "message" [] [], Node.node "receipt" [] []] ∧
    handlerQueueStep [Node.node "message" [] [], Node.node "receipt" [] []] ≠
      WorkerStep.nilCall := by
  have h := c9_worker_never_nil [Node.node "message" [] []] false [] false
      (Node.node "receipt" [] [])
      (by intro m hm; rw [List.mem_singleton.mp hm]; rfl)
      (Or.inl rfl)
  exact h

/-! ## Auto-reconnect (part_000 lines 183-202, part_001 lines 75-79) -/

/-- Outcome of one `cli.Connect()` call, supplied as an oracle: the
reconnect loop only branches on success / `ErrAlreadyConnected` /
other error. -/
inductive ConnectResult where
  | ok
  | alreadyConnected
  | err
  deriving DecidableEq

/-- The `for` loop of `autoReconnect` run against a finite oracle of
Connect outcomes.  Each turn increments the error counter `c`,
sleeps `c × 2` seconds, then calls Connect; success or
AlreadyConnected exits.  Returns (trace of (counter, sleep-seconds)
per attempt, final counter, exited?): `false` in the last slot means
the loop was still going when the oracle ran out — i.e. it loops
forever on an all-error oracle. -/
def autoReconnectLoop (cnt : Nat) : List ConnectResult → List (Nat × Nat) × Nat × Bool
  | [] => ([], cnt, false)
  | r :: rest =>
    let c := cnt + 1
    match r with
    | .ok => ([(c, 2 * c)], c, true)
    | .alreadyConnected => ([(c, 2 * c)], c, true)
    | .err =>
      let t := autoReconnectLoop c rest
      ((c, 2 * c) :: t.1, t.2.1, t.2.2)

/-- `Client.autoReconnect` (part_000 lines 183-202): a no-op when
auto-reconnect is disabled or the device store has no identity,
otherwise the retry loop above. -/
def autoReconnect (enabled hasID : Bool) (cnt : Nat)
    (rs : List ConnectResult) : List (Nat × Nat) × Nat × Bool :=
  if !enabled || !hasID then ([], cnt, true)
  else autoReconnectLoop cnt rs

/-- The state `handleConnectSuccess` mutates synchronously. -/
structure ARState where
  autoReconnectErrors : Nat
  isLoggedIn : Bool
  lastSuccessfulConnect : Nat
  deriving DecidableEq

/-- `Client.handleConnectSuccess` (part_001 lines 75-79): record the
connect time, zero the auto-reconnect error counter, mark logged in.
The post-connect goroutine it spawns (prekey top-up, SetPassive,
`Connected` event) touches none of this state. -/
def handleConnectSuccess (_st : ARState) (now : Nat) : ARState :=
  { autoReconnectErrors := 0, isLoggedIn := true, lastSuccessfulConnect := now }

/-- An all-error oracle: every attempt increments, sleeps, fails;
the loop never exits. -/
theorem autoReconnectLoop_all_err (rs : List ConnectResult) (cnt : Nat)
    (h : ∀ r ∈ rs, r = ConnectResult.err) :
    autoReconnectLoop cnt rs =
      ((List.range rs.length).map (fun i => (cnt + i + 1, 2 * (cnt + i + 1))),
       cnt + rs.length, false) := by
  induction rs generalizing cnt with
  | nil => rfl
  | cons r rest ih =>
    have hr : r = ConnectResult.err := h r (List.mem_cons_self r rest)
    subst hr
    have hrest : ∀ x ∈ rest, x = ConnectResult.err :=
      fun x hx => h x (List.mem_cons_of_mem _ hx)
    have hmap : List.map (fun i => (cnt + 1 + i + 1, 2 * (cnt + 1 + i + 1)))
        (List.range rest.length) =
        List.map ((fun i => (cnt + i + 1, 2 * (cnt + i + 1))) ∘ Nat.succ)
          (List.range rest.length) := by
      apply List.map_congr_left
      intro i _
      have h2 : cnt + 1 + i + 1 = cnt + (i + 1) + 1 := by omega
      simp only [Function.comp_apply, h2, Nat.succ_eq_add_one]
    have harith : cnt + 1 + rest.length = cnt + (rest.length + 1) := by omega
    simp only [autoReconnectLoop, ih (cnt + 1) hrest, List.length_cons,
      List.range_succ_eq_map, List.map_cons, List.map_map, hmap, harith,
      Nat.add_zero]

/-- A run of errors followed by a non-error: the loop does one attempt
per oracle entry up to and including the first non-error, then
exits. -/
theorem autoReconnectLoop_stops (pre : List ConnectResult) (r : ConnectResult)
    (post : List ConnectResult) (cnt : Nat)
    (hpre : ∀ x ∈ pre, x = ConnectResult.err) (hr : r ≠ ConnectResult.err) :
    autoReconnectLoop cnt (pre ++ r :: post) =
      ((List.range (pre.length + 1)).map
        (fun i => (cnt + i + 1, 2 * (cnt + i + 1))),
       cnt + pre.length + 1, true) := by
  induction pre generalizing cnt with
  | nil =>
    cases r with
    | ok => simp [autoReconnectLoop, List.range_succ]
    | alreadyConnected => simp [autoReconnectLoop, List.range_succ]
    | err => exact absurd rfl hr
  | cons x pre ih =>
    have hx : x = ConnectResult.err := hpre x (List.mem_cons_self x pre)
    subst hx
    have hpre2 : ∀ y ∈ pre, y = ConnectResult.err :=
      fun y hy => hpre y (List.mem_cons_of_mem _ hy)
    have hmap : List.map (fun i => (cnt + 1 + i + 1, 2 * (cnt + 1 + i + 1)))
        (List.range (pre.length + 1)) =
        List.map ((fun i => (cnt + i + 1, 2 * (cnt + i + 1))) ∘ Nat.succ)
          (List.range (pre.length + 1)) := by
      apply List.map_congr_left
      intro i _
      have h2 : cnt + 1 + i + 1 = cnt + (i + 1) + 1 := by omega
      simp only [Function.comp_apply, h2, Nat.succ_eq_add_one]
    have harith : cnt + 1 + pre.length + 1 = cnt + (pre.length + 1) + 1 := by omega
    have hstep : autoReconnectLoop cnt (ConnectResult.err :: (pre ++ r :: post)) =
        ((cnt + 1, 2 * (cnt + 1)) ::
           (autoReconnectLoop (cnt + 1) (pre ++ r :: post)).1,
         (autoReconnectLoop (cnt + 1) (pre ++ r :: post)).2.1,
         (autoReconnectLoop (cnt + 1) (pre ++ r :: post)).2.2) := rfl
    rw [List.cons_append, hstep, ih (cnt + 1) hpre2, hmap]
    simp only [List.length_cons, List.range_succ_eq_map, List.map_cons,
      List.map_map, Nat.add_zero, harith]
    rfl

/-- C6: auto-reconnect is a no-op when disabled or without a stored
identity; otherwise attempt `k` (counting from 1, on top of the
entering counter) runs with counter `cnt + k` after sleeping
`(cnt + k) × 2` seconds; the loop exits exactly at the first
success/AlreadyConnected and otherwise outlives any finite all-error
oracle; and handling a `success` node resets the counter to zero. -/
theorem c6_autoReconnect (enabled hasID : Bool) (cnt : Nat)
    (pre post : List ConnectResult) (r : ConnectResult)
    (hpre : ∀ x ∈ pre, x = ConnectResult.err) (hr : r ≠ ConnectResult.err) :
    (enabled = false ∨ hasID = false →
      ∀ rs : List ConnectResult,
        autoReconnect enabled hasID cnt rs = ([], cnt, true)) ∧
    autoReconnect true true cnt (pre ++ r :: post) =
      ((List.range (pre.length + 1)).map
        (fun i => (cnt + i + 1, 2 * (cnt + i + 1))),
       cnt + pre.length + 1, true) ∧
    autoReconnect true true cnt pre =
      ((List.range pre.length).map (fun i => (cnt + i + 1, 2 * (cnt + i + 1))),
       cnt + pre.length, false) ∧
    (∀ st : ARState, ∀ now : Nat,
      (handleConnectSuccess st now).autoReconnectErrors = 0 ∧
      (handleConnectSuccess st now).isLoggedIn = true) := by
  refine ⟨?_, ?_, ?_, fun _ _ => ⟨rfl, rfl⟩⟩
  · intro h rs
    rcases h with h | h <;> subst h <;> simp [autoReconnect]
  · rw [autoReconnect]
    simp only [Bool.not_true, Bool.or_self, Bool.false_eq_true, if_false]
    exact autoReconnectLoop_stops pre r post cnt hpre hr
  · rw [autoReconnect]
    simp only [Bool.not_true, Bool.or_self, Bool.false_eq_true, if_false]
    exact autoReconnectLoop_all_err pre cnt hpre

/-- C6 witness: counter entering at 0, oracle err, err, ok: attempts
run with counters 1, 2, 3 sleeping 2, 4, 6 seconds, and the loop
exits with counter 3; disabled auto-reconnect does nothing; a success
node then zeroes the counter. -/
theorem c6_autoReconnect_witness :
    autoReconnect false true 5 [ConnectResult.err] = ([], 5, true) ∧
    autoReconnect true true 0
        [ConnectResult.err, ConnectResult.err, ConnectResult.ok] =
      ([(1, 2), (2, 4), (3, 6)], 3, true) ∧
    (handleConnectSuccess ⟨7, false, 0⟩ 99).autoReconnectErrors = 0 := by
  have h := c6_autoReconnect false true 5 [] [] ConnectResult.ok
    (by intro x hx; simp at hx) (by simp)
  have h2 := c6_autoReconnect true true 0
    [ConnectResult.err, ConnectResult.err] [] ConnectResult.ok
    (by intro x hx; simp at hx; exact hx) (by simp)
  refine ⟨h.1 (Or.inl rfl) [ConnectResult.err], ?_, (h2.2.2.2 ⟨7, false, 0⟩ 99).1⟩
  exact h2.2.1.trans (by decide)

/-! ## Logout (part_000 lines 235-260) -/

/-- Outcome of the unlink IQ, supplied as an oracle. -/
inductive IQResult where
  | ok
  | err
  deriving DecidableEq

/-- What `Logout` returns. -/
inductive LogoutResult where
  | success
  | notLoggedIn
  | sendErr
  | deleteErr
  deriving DecidableEq

/-- `Client.Logout` (part_000 lines 235-260): `ErrNotLoggedIn`
without a stored identity; otherwise send the
`remove-companion-device` IQ; on IQ failure return the wrapped error
having neither disconnected nor deleted; on IQ success disconnect,
then delete the store (a delete failure is itself reported). -/
def Logout (hasID : Bool) (iq : IQResult) (deleteOK : Bool) :
    List Action × LogoutResult :=
  if !hasID then ([], LogoutResult.notLoggedIn)
  else
    match iq with
    | .err => ([Action.sendIQ "remove-companion-device"], LogoutResult.sendErr)
    | .ok =>
      ([Action.sendIQ "remove-companion-device", Action.disconnectCall,
        Action.storeDelete],
       if deleteOK then LogoutResult.success else LogoutResult.deleteErr)

/-- C7: without identity `Logout` returns NotLoggedIn having sent
nothing; on IQ failure it returns an error having neither
disconnected nor deleted; and the disconnect and the store deletion
happen if and only if the device is logged in and the unlink IQ
succeeded. -/
theorem c7_Logout (hasID : Bool) (iq : IQResult) (deleteOK : Bool) :
    Logout false iq deleteOK = ([], LogoutResult.notLoggedIn) ∧
    (Logout true IQResult.err deleteOK =
      ([Action.sendIQ "remove-companion-device"], LogoutResult.sendErr)) ∧
    ((Action.disconnectCall ∈ (Logout hasID iq deleteOK).1) ↔
      hasID = true ∧ iq = IQResult.ok) ∧
    ((Action.storeDelete ∈ (Logout hasID iq deleteOK).1) ↔
      hasID = true ∧ iq = IQResult.ok) ∧
    (Logout true IQResult.ok deleteOK).1 =
      [Action.sendIQ "remove-companion-device", Action.disconnectCall,
       Action.storeDelete] ∧
    (Logout true IQResult.ok deleteOK).2 =
      (if deleteOK then LogoutResult.success else LogoutResult.deleteErr) := by
  cases hasID <;> cases iq <;> cases deleteOK <;> decide

/-! ## GetProfilePictureInfo (user.go lines 128-171) -/

/-- Outcome of the profile-picture IQ: a reply node, a server IQ
error (`errors.Is(err, ErrIQError)`, with the error response node),
or any other error. -/
inductive SendIQResult where
  | ok (resp : Node)
  | iqErr (resp : Node)
  | otherErr

/-- What `GetProfilePictureInfo` returns, as (picture?, error?)
pairs: `noPicture` is `(nil, nil)`; `underlying` returns the sendIQ
error unchanged; `attrAssertFailed` marks the unchecked
`.(string)` type assertion on the error code blowing up. -/
inductive PPResult where
  | noPicture
  | unauthorized
  | underlying
  | missingPicture
  | info (id url ty directPath : String) (allPresent : Bool)
  | attrAssertFailed

/-- `Client.GetProfilePictureInfo` (user.go lines 128-171), after the
IQ outcome is known: an IQ error is inspected for the `error` child's
`code` — 404 means no picture and no error, 401 maps to
`ErrProfilePictureUnauthorized`, anything else returns the underlying
error; other errors are returned as-is; a reply without a `picture`
child is an error, else the picture attributes are read. -/
def GetProfilePictureInfo (r : SendIQResult) : PPResult :=
  match r with
  | .otherErr => PPResult.underlying
  | .iqErr resp =>
    match attrLookup (getChildByTag resp "error").attrs "code" with
    | none => PPResult.attrAssertFailed
    | some code =>
      if code = "404" then PPResult.noPicture
      else if code = "401" then PPResult.unauthorized
      else PPResult.underlying
  | .ok resp =>
    match getOptionalChildByTag resp "picture" with
    | none => PPResult.missingPicture
    | some picture =>
      PPResult.info (attrString picture "id") (attrString picture "url")
        (attrString picture "type") (attrString picture "direct_path")
        ((attrLookup picture.attrs "id").isSome &&
         (attrLookup picture.attrs "url").isSome &&
         (attrLookup picture.attrs "type").isSome &&
         (attrLookup picture.attrs "direct_path").isSome)

/-- C10: an IQ error whose `error` child carries code 404 yields
(nil, nil); code 401 yields the ProfilePictureUnauthorized error; any
other code, and any non-IQ error, is returned as the underlying
error. -/
theorem c10_GetProfilePictureInfo (resp : Node) :
    (attrLookup (getChildByTag resp "error").attrs "code" = some "404" →
      GetProfilePictureInfo (SendIQResult.iqErr resp) = PPResult.noPicture) ∧
    (attrLookup (getChildByTag resp "error").attrs "code" = some "401" →
      GetProfilePictureInfo (SendIQResult.iqErr resp) = PPResult.unauthorized) ∧
    (∀ c, attrLookup (getChildByTag resp "error").attrs "code" = some c →
      c ≠ "404" → c ≠ "401" →
      GetProfilePictureInfo (SendIQResult.iqErr resp) = PPResult.underlying) ∧
    GetProfilePictureInfo SendIQResult.otherErr = PPResult.underlying := by
  refine ⟨?_, ?_, ?_, rfl⟩
  · intro h
    rw [GetProfilePictureInfo]
    simp [h]
  · intro h
    rw [GetProfilePictureInfo]
    simp [h]
  · intro c h h404 h401
    rw [GetProfilePictureInfo]
    simp [h, h404, h401]

/-- C10 witness: concrete error responses with codes 404, 401 and
500. -/
theorem c10_GetProfilePictureInfo_witness :
    GetProfilePictureInfo
        (SendIQResult.iqErr (Node.node "iq" []
          [Node.node "error" [("code", "404")] []])) = PPResult.noPicture ∧
    GetProfilePictureInfo
        (SendIQResult.iqErr (Node.node "iq" []
          [Node.node "error" [("code", "401")] []])) = PPResult.unauthorized ∧
    GetProfilePictureInfo
        (SendIQResult.iqErr (Node.node "iq" []
          [Node.node "error" [("code", "500")] []])) = PPResult.underlying := by
  refine ⟨(c10_GetProfilePictureInfo _).1 rfl,
          (c10_GetProfilePictureInfo _).2.1 rfl,
          (c10_GetProfilePictureInfo _).2.2.1 "500" rfl (by decide) (by decide)⟩

end Whatsmeow

